import Mathlib

/-
  Verification development for the react-doc-gen repository.

  The source files embedded here:
  - src/src/utils/file-updater.js   (updateFileWithDocStrings, findComponentPosition,
    getComponentSignature, findExistingDocString)
  - src/src/docstring-generator.js  (sanitizeDocString)
  - src/unnamed/part_002, lib/extractor.js  (extractComponentsFromFile and its helpers
    findPrecedingComment, getLineAndColumn; the babel parser and tree walk are external
    libraries, so a parse outcome is modelled as an `Except` value carrying the sequence
    of matched-type nodes in traversal order).

  File contents are modelled as `List Char`; JavaScript string primitives
  (indexOf, lastIndexOf, substring, trim, split, startsWith, endsWith, and
  single-pass global regex replacement of a literal pattern) are modelled
  by the helpers below with JavaScript semantics.
-/

namespace ReactDocGen

abbrev Str := List Char

/-- The ASCII whitespace characters stripped by JavaScript String.prototype.trim
(the sources only ever contain ASCII whitespace). -/
def jsWhitespace (c : Char) : Bool :=
  c = ' ' || c = '\t' || c = '\n' || c = '\r' || c = '\x0b' || c = '\x0c'

/-- JavaScript s.trim(): strip leading and trailing whitespace. -/
def trimBoth (l : Str) : Str :=
  ((l.dropWhile jsWhitespace).reverse.dropWhile jsWhitespace).reverse

/-- JavaScript s.indexOf(pat): index of the first occurrence of pat in l
(none models the -1 result; the empty pattern matches at 0, as in JS). -/
def idxOf? : Str → Str → Option Nat
  | l@(_ :: t), pat => if pat.isPrefixOf l then some 0 else (idxOf? t pat).map (· + 1)
  | [], pat => if pat.isPrefixOf ([] : Str) then some 0 else none

/-- JavaScript s.lastIndexOf(pat, bound): the largest index i ≤ bound at which
pat occurs in l (none models the -1 result). -/
def lastIdxOfLe (l pat : Str) : Nat → Option Nat
  | 0 => if pat.isPrefixOf l then some 0 else none
  | b + 1 =>
    if pat.isPrefixOf (l.drop (b + 1)) then some (b + 1) else lastIdxOfLe l pat b

/-- JavaScript s.lastIndexOf(pat) with no bound argument. -/
def lastIdxOf (l pat : Str) : Option Nat :=
  lastIdxOfLe l pat l.length

/-- The scan of stripAll, structured on a fuel argument so that it is
structurally recursive; each step consumes one unit of fuel and at least one
character, so fuel equal to the text length never runs out. -/
def stripAllAux (pat : Str) : Nat → Str → Str
  | 0, l => l
  | _ + 1, [] => []
  | fuel + 1, c :: t =>
    if pat.isPrefixOf (c :: t) && !pat.isEmpty then
      stripAllAux pat fuel (t.drop (pat.length - 1))
    else c :: stripAllAux pat fuel t

/-- JavaScript s.replace(patternRegex, "") with the global flag, for a literal
pattern: one left-to-right pass removing non-overlapping occurrences; the text
already emitted is not rescanned. -/
def stripAll (pat l : Str) : Str := stripAllAux pat l.length l

/-- JavaScript s.split(sep)[i] pieces for sep = a single newline. -/
def splitOnNewline : Str → List Str
  | [] => [[]]
  | c :: t =>
    if c = '\n' then [] :: splitOnNewline t
    else match splitOnNewline t with
      | [] => [[c]]
      | l :: ls => (c :: l) :: ls

/-- Line/column location record (lib/extractor.js location objects). -/
structure Loc where
  line : Nat
  column : Nat
deriving DecidableEq, Repr

/-- A discovered component record, as built by addComponent in lib/extractor.js
and consumed by lib/file-updater.js. -/
structure Component where
  name : String
  uniqueId : String
  file : String
  filePath : String
  code : Str
  location : Loc
  startPos : Nat
  endPos : Nat
  existingComment : Option Str
  commentStart : Option Nat
  commentEnd : Option Nat
  type : String
deriving DecidableEq, Repr

/-- One entry of the docStrings map produced by lib/docstring-generator.js:
docstring none models a null docstring (JS falsy, as does the empty string). -/
structure DocStringResult where
  docstring : Option Str
  skipped : Bool
deriving DecidableEq, Repr

/-- The options consumed by updateFileWithDocStrings. -/
structure UpdateOptions where
  isDryRun : Bool
  updateExisting : Bool
deriving DecidableEq, Repr

/-- The record returned by findComponentPosition. -/
structure CompPos where
  start : Nat
  signatureStart : Nat
  signatureEnd : Nat
deriving DecidableEq, Repr

/-- The record returned by findExistingDocString (the source field named end
is called endPos here because end is a Lean keyword). -/
structure DocSpan where
  start : Nat
  endPos : Nat
deriving DecidableEq, Repr

/-- The mutable loop state of updateFileWithDocStrings: the content buffer and
the success / failed / skipped / modified accumulators. -/
structure PatchState where
  content : Str
  success : Nat
  failed : Nat
  skipped : Nat
  modified : Bool
deriving DecidableEq, Repr

/-- The result of one per-file update: the rewritten text plus the counters
(the spec's patchFile interface). -/
structure UpdateResult where
  newText : Str
  success : Nat
  failed : Nat
  skipped : Nat
  modified : Bool
deriving DecidableEq, Repr

/-- getComponentSignature (file-updater.js): the trimmed first line of the
component code, component.code.split(newline)[0].trim(). -/
def getComponentSignature (c : Component) : Str :=
  trimBoth (c.code.takeWhile (· ≠ '\n'))

/-- findComponentPosition (file-updater.js): locate the component by the first
occurrence of its signature, then back up to the start of that line.  The
export check in the source assigns the same value on both branches and is
reproduced as such. -/
def findComponentPosition (content : Str) (component : Component) : Option CompPos :=
  let componentSignature := getComponentSignature component
  match idxOf? content componentSignature with
  | none => none
  | some signatureIndex =>
    let beforeSignature := content.take signatureIndex
    let lineStart := match lastIdxOf beforeSignature ['\n'] with
      | none => 0
      | some lastNewline => lastNewline + 1
    let lineContent := (content.take signatureIndex).drop lineStart
    let exportStart :=
      if "export".toList.isPrefixOf (trimBoth lineContent) then lineStart else lineStart
    some ⟨exportStart, signatureIndex, signatureIndex + componentSignature.length⟩

/-- findExistingDocString (file-updater.js): the prefix of the buffer before
position is trimmed, and the returned offsets are indices into that trimmed
string, exactly as in the source. -/
def findExistingDocString (content : Str) (position : Nat) : Option DocSpan :=
  let before := trimBoth (content.take position)
  if "*/".toList.isSuffixOf before then
    match lastIdxOf before ("*/".toList) with
    | none => none
    | some docEnd =>
      match lastIdxOfLe before ("/**".toList) docEnd with
      | none => none
      | some docStart => some ⟨docStart, docEnd + 2⟩
  else none

/-- One insertion step of the stable sort performed by
[...components].sort((a, b) => b.startPos - a.startPos): the new element goes
after every element already placed that the comparator keeps before it. -/
def insertSorted (r : Component → Component → Prop) [DecidableRel r]
    (c : Component) : List Component → List Component
  | [] => [c]
  | d :: t => if r d c then d :: insertSorted r c t else c :: d :: t

/-- Stable sort (JS Array.prototype.sort is stable) with respect to the
relation keeping d before c. -/
def sortStable (r : Component → Component → Prop) [DecidableRel r]
    (l : List Component) : List Component :=
  l.foldl (fun acc c => insertSorted r c acc) []

/-- The patcher's sort: descending by startPos. -/
def sortByStartPosDesc (l : List Component) : List Component :=
  sortStable (fun d c => c.startPos ≤ d.startPos) l

/-- The locator's sort: ascending by startPos
(components.sort((a, b) => a.startPos - b.startPos)). -/
def sortByStartPosAsc (l : List Component) : List Component :=
  sortStable (fun d c => d.startPos ≤ c.startPos) l

/-- The body of the per-component loop of updateFileWithDocStrings
(file-updater.js lines 92-151), as a step on the loop state.  The source
consults docStrings[component.uniqueId]; a falsy result, a falsy docstring
(null or empty) or a skipped flag increments skipped; a failed relocation
increments failed; otherwise the existing-doc replacement or the
line-start insertion is applied. -/
def processComponent (docStrings : String → Option DocStringResult)
    (options : UpdateOptions) (st : PatchState) (component : Component) : PatchState :=
  match docStrings component.uniqueId with
  | none => { st with skipped := st.skipped + 1 }
  | some docStringResult =>
    match docStringResult.docstring with
    | none => { st with skipped := st.skipped + 1 }
    | some doc =>
      if doc.isEmpty || docStringResult.skipped then { st with skipped := st.skipped + 1 }
      else
        match findComponentPosition st.content component with
        | none => { st with failed := st.failed + 1 }
        | some currentPosition =>
          match findExistingDocString st.content currentPosition.start with
          | some existingDoc =>
            if options.updateExisting then
              { st with
                content := st.content.take existingDoc.start ++ doc
                  ++ st.content.drop existingDoc.endPos
                modified := true
                success := st.success + 1 }
            else { st with skipped := st.skipped + 1 }
          | none =>
            let beforeComponent := st.content.take currentPosition.start
            let insertPos := match lastIdxOf beforeComponent ['\n'] with
              | none => 0
              | some lastNewline => lastNewline + 1
            { st with
              content := st.content.take insertPos ++ doc
                ++ '\n' :: st.content.drop insertPos
              modified := true
              success := st.success + 1 }

/-- updateFileWithDocStrings (file-updater.js), with the file I/O abstracted
away: the file content is the input and the rewritten content is returned in
newText.  A dry run returns immediately with success = components.length and
failed = 0 (the source returns no skipped field there; it is modelled as 0). -/
def updateFileWithDocStrings (content : Str) (components : List Component)
    (docStrings : String → Option DocStringResult) (options : UpdateOptions) : UpdateResult :=
  if options.isDryRun then ⟨content, components.length, 0, 0, false⟩
  else
    let sortedComponents := sortByStartPosDesc components
    let st := sortedComponents.foldl (processComponent docStrings options)
      ⟨content, 0, 0, 0, false⟩
    ⟨st.content, st.success, st.failed, st.skipped, st.modified⟩

/-- The first wrapping statement of sanitizeDocString: prepend the open
marker when the text does not already start with it (the template
interpolation yields the open marker, the optional star line, a space, then
the text). -/
def wrapOpen (sanitized : Str) : Str :=
  if "/**".toList.isPrefixOf sanitized then sanitized
  else "/**".toList
    ++ (if "*".toList.isPrefixOf sanitized then ([] : Str) else "\n *".toList)
    ++ ' ' :: sanitized

/-- The second wrapping statement of sanitizeDocString: append the close
marker when the text does not already end with it. -/
def wrapClose (sanitized : Str) : Str :=
  if "*/".toList.isSuffixOf sanitized then sanitized
  else sanitized ++ "\n */".toList

/-- sanitizeDocString (docstring-generator.js).  The source's first statement
computes docString.replace of the open markers but its result is immediately
overwritten: the second statement reads docString again, so only the
removal of the two-character open marker, then of the starred and plain close
markers, then the re-wrapping, take effect.  That is reproduced here. -/
def sanitizeDocString (docString : Str) : Str :=
  wrapClose (wrapOpen
    (stripAll ("*/".toList)
      (stripAll ("**/".toList)
        (stripAll ("/*".toList) docString))))

/-
  lib/extractor.js (src/unnamed/part_002).  The babel parser and the babel
  tree walk are external libraries; a parse attempt is modelled as an Except
  value: an error for a parse failure, otherwise the sequence of nodes of the
  three visited types (FunctionDeclaration, VariableDeclarator grouped under
  their parent VariableDeclaration, ClassDeclaration) in traversal order.
  The visitor callbacks, addComponent, findPrecedingComment, getLineAndColumn
  and the final ascending sort are embedded from the source.
-/

/-- The callee shape of a variable initializer call expression. -/
inductive Callee where
  | identifier (name : String)
  | memberExpression (propertyName : Option String)
  | otherCallee
deriving DecidableEq, Repr

/-- The initializer shape of a variable declarator. -/
inductive Init where
  | arrowFunctionExpression
  | callExpression (callee : Callee)
  | otherInit
deriving DecidableEq, Repr

/-- One variable declarator: its identifier (none when the binding is not a
plain identifier, or absent) and its initializer shape. -/
structure Declarator where
  id : Option String
  init : Init
deriving DecidableEq, Repr

/-- The superclass shape of a class declaration; a member expression carries
the object name when the object is a plain identifier and the property name. -/
inductive SuperClass where
  | identifier (name : String)
  | memberExpression (objectName : Option String) (propertyName : Option String)
  | otherSuper
deriving DecidableEq, Repr

/-- One AST node of a type the extractor visits, with its span offsets. -/
inductive VisitedNode where
  | functionDeclaration (id : Option String) (startPos endPos : Nat)
  | variableDeclaration (startPos endPos : Nat) (declarators : List Declarator)
  | classDeclaration (id : Option String) (superClass : Option SuperClass)
      (startPos endPos : Nat)
deriving DecidableEq, Repr

/-- The regex test of the component-name filter, /^[A-Z]/.test(name). -/
def nameStartsUpper (name : String) : Bool :=
  match name.toList with
  | c :: _ => 'A' ≤ c && c ≤ 'Z'
  | [] => false

/-- getLineAndColumn (extractor.js): 1-based line and column of a character
position, from the newlines of the preceding text. -/
def getLineAndColumn (text : Str) (position : Nat) : Loc :=
  if position = 0 then ⟨1, 1⟩
  else
    let lines := splitOnNewline (text.take position)
    ⟨lines.length, (lines.getLastD []).length + 1⟩

/-- The record returned by findPrecedingComment (extractor.js); the source
field named end is called endPos here. -/
structure PrecedingComment where
  comment : Str
  start : Nat
  endPos : Nat
deriving DecidableEq, Repr

/-- findPrecedingComment (extractor.js): the nearest close marker before the
component, its matching open marker, and the requirement that only whitespace
separates the comment from the component. -/
def findPrecedingComment (text : Str) (componentStart : Nat) : Option PrecedingComment :=
  let preComponent := text.take componentStart
  match lastIdxOf preComponent ("*/".toList) with
  | none => none
  | some commentEndIndex =>
    match lastIdxOfLe preComponent ("/**".toList) commentEndIndex with
    | none => none
    | some commentStartIndex =>
      let betweenText := trimBoth (preComponent.drop (commentEndIndex + 2))
      if betweenText ≠ ([] : Str) then none
      else some ⟨(preComponent.take (commentEndIndex + 2)).drop commentStartIndex,
        commentStartIndex, commentEndIndex + 2⟩

/-- relativePath.replace of every character outside [a-zA-Z0-9] by an
underscore, as used for the unique id. -/
def sanitizeForId (s : String) : String :=
  String.mk (s.toList.map fun c =>
    if ('a' ≤ c && c ≤ 'z') || ('A' ≤ c && c ≤ 'Z') || ('0' ≤ c && c ≤ '9') then c
    else '_')

/-- addComponent (extractor.js): builds the component record pushed onto the
components list. -/
def addComponent (fileContent : Str) (filePath relativePath : String)
    (name : String) (startPos endPos : Nat) (type : String) : Component :=
  let location := getLineAndColumn fileContent startPos
  let existingComment := findPrecedingComment fileContent startPos
  let componentCode := (fileContent.take endPos).drop startPos
  { name := name
    uniqueId := name ++ "_" ++ sanitizeForId relativePath ++ "_"
      ++ toString location.line ++ "_" ++ toString location.column
    file := relativePath
    filePath := filePath
    code := componentCode
    location := location
    startPos := startPos
    endPos := endPos
    existingComment := existingComment.map (·.comment)
    commentStart := existingComment.map (·.start)
    commentEnd := existingComment.map (·.endPos)
    type := type }

/-- The fixed recognized-wrapper names of the VariableDeclarator visitor. -/
def recognizedWrappers : List String := ["styled", "memo", "forwardRef"]

/-- The VariableDeclarator visitor's classification of an initializer: the
component type when the declarator initializer makes it a component. -/
def variableInitType : Init → Option String
  | .arrowFunctionExpression => some "ArrowFunctionComponent"
  | .callExpression (.identifier calleeName) =>
    if calleeName ∈ recognizedWrappers then
      some (if calleeName = "styled" then "StyledComponent" else "HOCComponent")
    else none
  | .callExpression (.memberExpression (some propertyName)) =>
    if propertyName ∈ recognizedWrappers then
      some (if propertyName = "styled" then "StyledComponent" else "HOCComponent")
    else none
  | _ => none

/-- The ClassDeclaration visitor's superclass test: a bare Component
identifier, or the React member expression with property Component. -/
def superClassMatches : Option SuperClass → Bool
  | some (.identifier name) => name = "Component"
  | some (.memberExpression objectName propertyName) =>
    objectName = some "React" && propertyName = some "Component"
  | _ => false

/-- The VariableDeclarator visitor applied to the declarators of one variable
declaration, whose span is the reported span. -/
def visitDeclarators (fileContent : Str) (filePath relativePath : String)
    (declStart declEnd : Nat) : List Declarator → List Component
  | [] => []
  | d :: rest =>
    match d.id with
    | some name =>
      if nameStartsUpper name then
        match variableInitType d.init with
        | some type =>
          addComponent fileContent filePath relativePath name declStart declEnd type
            :: visitDeclarators fileContent filePath relativePath declStart declEnd rest
        | none => visitDeclarators fileContent filePath relativePath declStart declEnd rest
      else visitDeclarators fileContent filePath relativePath declStart declEnd rest
    | none => visitDeclarators fileContent filePath relativePath declStart declEnd rest

/-- One visitor callback applied to one node.  The ClassDeclaration visitor
reads node.id.name with no null guard once the superclass test has passed; a
missing id there is the thrown TypeError, modelled as the error case. -/
def visitOneNode (fileContent : Str) (filePath relativePath : String) :
    VisitedNode → Except Unit (List Component)
  | .functionDeclaration id startPos endPos =>
    match id with
    | some name =>
      if nameStartsUpper name then
        .ok [addComponent fileContent filePath relativePath name
          startPos endPos "FunctionComponent"]
      else .ok []
    | none => .ok []
  | .variableDeclaration startPos endPos declarators =>
    .ok (visitDeclarators fileContent filePath relativePath startPos endPos declarators)
  | .classDeclaration id superClass startPos endPos =>
    if superClassMatches superClass then
      match id with
      | some name =>
        .ok [addComponent fileContent filePath relativePath name
          startPos endPos "ClassComponent"]
      | none => .error ()
    else .ok []

/-- The visitor callbacks applied to the whole traversal sequence; a thrown
callback aborts the traversal. -/
def visitNodes (fileContent : Str) (filePath relativePath : String) :
    List VisitedNode → Except Unit (List Component)
  | [] => .ok []
  | n :: rest =>
    match visitOneNode fileContent filePath relativePath n with
    | .error e => .error e
    | .ok here =>
      match visitNodes fileContent filePath relativePath rest with
      | .error e => .error e
      | .ok tail => .ok (here ++ tail)

/-- extractComponentsFromFile (extractor.js): a parse failure is caught and
yields the empty component list; otherwise the traversal runs (its thrown
TypeError, if any, is the error case and escapes this function, as in the
source, where the try block only wraps the parse), and the collected
components are sorted by startPos ascending. -/
def extractComponentsFromFile (filePath : String) (fileContent : Str)
    (relativePath : String) (parseResult : Except String (List VisitedNode)) :
    Except Unit (List Component) :=
  match parseResult with
  | .error _ => .ok []
  | .ok nodes =>
    match visitNodes fileContent filePath relativePath nodes with
    | .error e => .error e
    | .ok components => .ok (sortByStartPosAsc components)

/-- The guard of the skip branch of the update loop, as a single test: the
component has a docStrings entry whose docstring is truthy and that is not
marked skipped. -/
def docApplicable (r : Option DocStringResult) : Bool :=
  match r with
  | none => false
  | some docStringResult =>
    match docStringResult.docstring with
    | none => false
    | some doc => !doc.isEmpty && !docStringResult.skipped

/-- The declarator test of the VariableDeclarator visitor, as a single
boolean. -/
def declaratorMatches (d : Declarator) : Bool :=
  match d.id with
  | some name => nameStartsUpper name && (variableInitType d.init).isSome
  | none => false

/-- The per-node test of whether any visitor callback fires on the node (the
class test is on the superclass alone, since a matching superclass fires the
callback whether or not the class has an id). -/
def nodeMatches : VisitedNode → Bool
  | .functionDeclaration (some name) _ _ => nameStartsUpper name
  | .functionDeclaration none _ _ => false
  | .variableDeclaration _ _ declarators => declarators.any declaratorMatches
  | .classDeclaration _ superClass _ _ => superClassMatches superClass

/- Concrete inputs used by the claim theorems. -/

/-- A plain arrow-function component record for the patcher inputs (the
fields the patcher reads are uniqueId, code and startPos). -/
def plainComponent (name uid code : String) (sp : Nat) : Component :=
  { name := name, uniqueId := uid, file := "a.js", filePath := "/p/a.js",
    code := code.toList, location := ⟨1, 1⟩, startPos := sp,
    endPos := sp + code.length, existingComment := none, commentStart := none,
    commentEnd := none, type := "ArrowFunctionComponent" }

def c1Text : Str := "const Foo = () => {};\n\nconst Bar = () => {};\n".toList

def c1Foo : Component := plainComponent "Foo" "Foo_1" "const Foo = () => {};" 0

def c1Bar : Component := plainComponent "Bar" "Bar_1" "const Bar = () => {};" 23

def c1Docs : String → Option DocStringResult := fun id =>
  if id = "Foo_1" then some ⟨some "/** Foo docs */".toList, false⟩
  else if id = "Bar_1" then some ⟨some "/** Bar docs */".toList, false⟩
  else none

def c2Text : Str := "const Foo = () => {};\n".toList

def c2Foo : Component := plainComponent "Foo" "Foo_1" "const Foo = () => {};" 0

/-- A docstring with no comment markers at all: the patcher inserts it as
given, and a second pass cannot detect it as an existing block. -/
def c2Docs : String → Option DocStringResult := fun id =>
  if id = "Foo_1" then some ⟨some "x".toList, false⟩ else none

/-- A file whose single component already carries a documentation block. -/
def c2WText : Str := "/** d */\nconst Foo = () => {};\n".toList

/-- A file starting with a whitespace character, whose component carries a
documentation block: the trimmed-prefix offsets of findExistingDocString are
then off by one against the buffer. -/
def c3Text : Str := " /** old */\nconst Foo = () => {};\n".toList

def c3Foo : Component := plainComponent "Foo" "Foo_1" "const Foo = () => {};" 12

def c3Docs : String → Option DocStringResult := fun id =>
  if id = "Foo_1" then some ⟨some "/** new */".toList, false⟩ else none

def c5Content : Str :=
  "function Foo() \x7b\n  const Bar = () => 1;\n  return Bar;\n\x7d\n".toList

/-- The traversal sequence of c5Content: the babel walk visits the arrow
declarator nested inside the function body as well. -/
def c5Nodes : List VisitedNode :=
  [ .functionDeclaration (some "Foo") 0 55,
    .variableDeclaration 19 39 [⟨some "Bar", .arrowFunctionExpression⟩] ]

def c5WContent : Str := "function App() { }".toList

def c5WNodes : List VisitedNode := [.functionDeclaration (some "App") 0 18]

/-- The component extracted from c5WContent. -/
def c5WComp : Component :=
  { name := "App", uniqueId := "App_b_js_1_1", file := "b.js",
    filePath := "/p/b.js", code := "function App() { }".toList,
    location := ⟨1, 1⟩, startPos := 0, endPos := 18, existingComment := none,
    commentStart := none, commentEnd := none, type := "FunctionComponent" }

def c6Content : Str := "class foo extends Component {}\n".toList

/-- A class declaration with a lower-case name extending Component. -/
def c6Nodes : List VisitedNode :=
  [.classDeclaration (some "foo") (some (.identifier "Component")) 0 30]

def c6WContent : Str := "function App() { }".toList

def c6WNodes : List VisitedNode := [.functionDeclaration (some "App") 0 18]

/-- The component extracted from c6WContent. -/
def c6WComp : Component :=
  { name := "App", uniqueId := "App_c_js_1_1", file := "c.js",
    filePath := "/p/c.js", code := "function App() { }".toList,
    location := ⟨1, 1⟩, startPos := 0, endPos := 18, existingComment := none,
    commentStart := none, commentEnd := none, type := "FunctionComponent" }

def c7Content : Str := "export default class extends Component {}\n".toList

/-- The traversal sequence of c7Content: an anonymous default-exported class
whose superclass matches; its ClassDeclaration node has no id. -/
def c7Nodes : List VisitedNode :=
  [.classDeclaration none (some (.identifier "Component")) 15 42]

def c7WContent : Str := "const helper = 1;\n".toList

/-- A traversal sequence on which no visitor fires: a lower-case function. -/
def c7WNodes : List VisitedNode := [.functionDeclaration (some "helper") 0 10]

def c8Text : Str := "const Foo = () => {};\n".toList

def c8Comp : Component := plainComponent "Foo" "Foo_1" "const Foo = () => {};" 0

/-- A docStrings map with no entry for the component: a real run skips it,
while a dry run reports it as a success. -/
def c8Docs : String → Option DocStringResult := fun _ => none

def c10Text : Str := "let x = 1;\n".toList

/-- A component whose signature does not occur in c10Text, so relocation
fails. -/
def c10Comp : Component := plainComponent "Zed" "Zed_1" "const Zed = () => {};" 0

def c10Docs : String → Option DocStringResult := fun id =>
  if id = "Zed_1" then some ⟨some "/** z */".toList, false⟩ else none

/- Helper lemmas about the stable sort. -/

theorem insertSorted_perm (r : Component → Component → Prop) [DecidableRel r]
    (c : Component) : ∀ l : List Component, List.Perm (insertSorted r c l) (c :: l) := by
  intro l
  induction l with
  | nil => simp [insertSorted]
  | cons d t ih =>
    by_cases h : r d c
    · simpa [insertSorted, h] using ((ih.cons d).trans (List.Perm.swap c d t))
    · simp [insertSorted, h]

theorem insertSorted_mem (r : Component → Component → Prop) [DecidableRel r]
    (c x : Component) (l : List Component) :
    x ∈ insertSorted r c l ↔ x = c ∨ x ∈ l := by
  rw [(insertSorted_perm r c l).mem_iff]
  simp

theorem sortStable_aux_perm (r : Component → Component → Prop) [DecidableRel r] :
    ∀ (l acc : List Component),
      List.Perm (l.foldl (fun a c => insertSorted r c a) acc) (acc ++ l) := by
  intro l
  induction l with
  | nil => simp
  | cons c t ih =>
    intro acc
    have h1 := ih (insertSorted r c acc)
    have h2 : List.Perm (insertSorted r c acc ++ t) ((c :: acc) ++ t) :=
      (insertSorted_perm r c acc).append_right t
    have h3 : List.Perm ((c :: acc) ++ t) (acc ++ c :: t) := by
      simpa using List.perm_middle.symm
    exact (h1.trans h2).trans h3

theorem sortStable_perm (r : Component → Component → Prop) [DecidableRel r]
    (l : List Component) : List.Perm (sortStable r l) l := by
  simpa [sortStable] using sortStable_aux_perm r l []

theorem insertSorted_pairwise (r : Component → Component → Prop) [DecidableRel r]
    (total : ∀ x y, r x y ∨ r y x) (htrans : ∀ x y z, r x y → r y z → r x z)
    (c : Component) :
    ∀ l : List Component, List.Pairwise r l → List.Pairwise r (insertSorted r c l) := by
  intro l
  induction l with
  | nil => intro _; simp [insertSorted]
  | cons d t ih =>
    intro hp
    rw [List.pairwise_cons] at hp
    obtain ⟨hd, ht⟩ := hp
    by_cases h : r d c
    · rw [insertSorted, if_pos h, List.pairwise_cons]
      refine ⟨?_, ih ht⟩
      intro y hy
      rcases (insertSorted_mem r c y t).mp hy with hyc | hyt
      · exact hyc ▸ h
      · exact hd y hyt
    · rw [insertSorted, if_neg h, List.pairwise_cons]
      have hcd : r c d := (total c d).resolve_right (fun hdc => h hdc)
      refine ⟨?_, List.pairwise_cons.mpr ⟨hd, ht⟩⟩
      intro y hy
      rcases List.mem_cons.mp hy with hyd | hyt
      · exact hyd ▸ hcd
      · exact htrans c d y hcd (hd y hyt)

theorem sortStable_pairwise (r : Component → Component → Prop) [DecidableRel r]
    (total : ∀ x y, r x y ∨ r y x) (htrans : ∀ x y z, r x y → r y z → r x z)
    (l : List Component) : List.Pairwise r (sortStable r l) := by
  suffices h : ∀ (l acc : List Component), List.Pairwise r acc →
      List.Pairwise r (l.foldl (fun a c => insertSorted r c a) acc) by
    exact h l [] List.Pairwise.nil
  intro l
  induction l with
  | nil => intro acc h; simpa using h
  | cons c t ih =>
    intro acc hacc
    exact ih (insertSorted r c acc) (insertSorted_pairwise r total htrans c acc hacc)

theorem sortByStartPosDesc_perm (l : List Component) :
    List.Perm (sortByStartPosDesc l) l :=
  sortStable_perm _ l

theorem sortByStartPosAsc_perm (l : List Component) :
    List.Perm (sortByStartPosAsc l) l :=
  sortStable_perm _ l

theorem sortByStartPosDesc_length (l : List Component) :
    (sortByStartPosDesc l).length = l.length :=
  (sortByStartPosDesc_perm l).length_eq

/- Helper lemmas about the per-component loop. -/

/-- Each loop iteration increments exactly one of the three counters. -/
theorem processComponent_counts (docStrings : String → Option DocStringResult)
    (options : UpdateOptions) (st : PatchState) (c : Component) :
    (processComponent docStrings options st c).success
      + (processComponent docStrings options st c).failed
      + (processComponent docStrings options st c).skipped
      = st.success + st.failed + st.skipped + 1 := by
  obtain ⟨content, s, f, sk, m⟩ := st
  unfold processComponent
  repeat' split
  all_goals simp
  all_goals omega

theorem foldl_processComponent_counts (docStrings : String → Option DocStringResult)
    (options : UpdateOptions) :
    ∀ (l : List Component) (st : PatchState),
      (l.foldl (processComponent docStrings options) st).success
        + (l.foldl (processComponent docStrings options) st).failed
        + (l.foldl (processComponent docStrings options) st).skipped
        = st.success + st.failed + st.skipped + l.length := by
  intro l
  induction l with
  | nil => intro st; simp
  | cons c t ih =>
    intro st
    have h := processComponent_counts docStrings options st c
    calc (List.foldl (processComponent docStrings options)
            (processComponent docStrings options st c) t).success
          + (List.foldl (processComponent docStrings options)
            (processComponent docStrings options st c) t).failed
          + (List.foldl (processComponent docStrings options)
            (processComponent docStrings options st c) t).skipped
        = (processComponent docStrings options st c).success
          + (processComponent docStrings options st c).failed
          + (processComponent docStrings options st c).skipped + t.length :=
          ih (processComponent docStrings options st c)
      _ = st.success + st.failed + st.skipped + (c :: t).length := by
          rw [h]; simp; omega

/-- With updating of existing documentation disabled, a component whose
applicable docstring relocates to a position already carrying a detected
documentation block is skipped and the buffer is untouched; a component with
no applicable docstring is likewise skipped. -/
theorem processComponent_skip (docStrings : String → Option DocStringResult)
    (st : PatchState) (c : Component)
    (h : docApplicable (docStrings c.uniqueId) = true →
      ∃ p, findComponentPosition st.content c = some p ∧
        ∃ ex, findExistingDocString st.content p.start = some ex) :
    processComponent docStrings ⟨false, false⟩ st c
      = { st with skipped := st.skipped + 1 } := by
  cases hd : docStrings c.uniqueId with
  | none => simp [processComponent, hd]
  | some docStringResult =>
    cases hds : docStringResult.docstring with
    | none => simp [processComponent, hd, hds]
    | some doc =>
      by_cases he : (doc.isEmpty || docStringResult.skipped : Bool)
      · simp [processComponent, hd, hds, he]
      · have happ : docApplicable (docStrings c.uniqueId) = true := by
          simp only [docApplicable, hd, hds]
          simp only [Bool.or_eq_true, not_or, Bool.not_eq_true] at he
          simp [he.1, he.2]
        obtain ⟨p, hp, ex, hex⟩ := h happ
        simp [processComponent, hd, hds, he, hp, hex]

theorem foldl_processComponent_skip (docStrings : String → Option DocStringResult)
    (content : Str) :
    ∀ (l : List Component) (st : PatchState), st.content = content →
      (∀ c ∈ l, docApplicable (docStrings c.uniqueId) = true →
        ∃ p, findComponentPosition content c = some p ∧
          ∃ ex, findExistingDocString content p.start = some ex) →
      l.foldl (processComponent docStrings ⟨false, false⟩) st
        = { st with skipped := st.skipped + l.length } := by
  intro l
  induction l with
  | nil => intro st _ _; simp
  | cons c t ih =>
    intro st hst hall
    have hc := hall c (by simp)
    rw [← hst] at hc
    have hstep := processComponent_skip docStrings st c hc
    rw [List.foldl_cons, hstep]
    have h2 := ih { st with skipped := st.skipped + 1 } (by simpa using hst)
      (fun c hc => hall c (List.mem_cons_of_mem _ hc))
    rw [h2]
    simp
    omega

/- Helper lemmas about the extractor model. -/

theorem addComponent_name (fileContent : Str) (filePath relativePath name : String)
    (startPos endPos : Nat) (type : String) :
    (addComponent fileContent filePath relativePath name startPos endPos type).name
      = name := rfl

theorem addComponent_type (fileContent : Str) (filePath relativePath name : String)
    (startPos endPos : Nat) (type : String) :
    (addComponent fileContent filePath relativePath name startPos endPos type).type
      = type := rfl

theorem visitDeclarators_upper (fileContent : Str) (filePath relativePath : String)
    (declStart declEnd : Nat) :
    ∀ (ds : List Declarator) (c : Component),
      c ∈ visitDeclarators fileContent filePath relativePath declStart declEnd ds →
      nameStartsUpper c.name = true := by
  intro ds
  induction ds with
  | nil => intro c hc; simp [visitDeclarators] at hc
  | cons d rest ih =>
    intro c hc
    rw [visitDeclarators] at hc
    repeat' split at hc
    all_goals first
      | exact ih c hc
      | (rcases List.mem_cons.mp hc with h1 | h2
         · rw [h1, addComponent_name]; assumption
         · exact ih c h2)

/-- Every component the visitors collect whose type is not ClassComponent
passed the uppercase-first-letter name test (the class branch applies no such
test). -/
theorem visitNodes_upper (fileContent : Str) (filePath relativePath : String) :
    ∀ (nodes : List VisitedNode) (l : List Component),
      visitNodes fileContent filePath relativePath nodes = .ok l →
      ∀ c ∈ l, c.type ≠ "ClassComponent" → nameStartsUpper c.name = true := by
  intro nodes
  induction nodes with
  | nil =>
    intro l hl c hc _
    rw [visitNodes] at hl
    cases hl
    simp at hc
  | cons n rest ih =>
    intro l hl c hc hty
    rw [visitNodes] at hl
    split at hl
    · cases hl
    · rename_i here hone
      split at hl
      · cases hl
      · rename_i tail hrest
        cases hl
        rcases List.mem_append.mp hc with hchere | hctail
        · cases n with
          | functionDeclaration id startPos endPos =>
            simp only [visitOneNode] at hone
            repeat' split at hone
            all_goals cases hone
            · rw [List.mem_singleton.mp hchere, addComponent_name]; assumption
            · simp at hchere
            · simp at hchere
          | variableDeclaration startPos endPos declarators =>
            simp only [visitOneNode] at hone
            cases hone
            exact visitDeclarators_upper fileContent filePath relativePath
              startPos endPos declarators c hchere
          | classDeclaration id superClass startPos endPos =>
            simp only [visitOneNode] at hone
            repeat' split at hone
            · cases hone
              exact absurd (by rw [List.mem_singleton.mp hchere, addComponent_type]) hty
            · cases hone
            · cases hone
              simp at hchere
        · exact ih tail hrest c hctail hty

theorem visitDeclarators_none (fileContent : Str) (filePath relativePath : String)
    (declStart declEnd : Nat) :
    ∀ ds : List Declarator, (∀ d ∈ ds, declaratorMatches d = false) →
      visitDeclarators fileContent filePath relativePath declStart declEnd ds = [] := by
  intro ds
  induction ds with
  | nil => intro _; rfl
  | cons d rest ih =>
    intro hall
    have hd := hall d (by simp)
    have hrest := ih fun x hx => hall x (List.mem_cons_of_mem _ hx)
    rw [visitDeclarators]
    split
    · rename_i name heq
      simp only [declaratorMatches, heq] at hd
      split
      · rename_i hup
        split
        · rename_i type hit
          simp [hup, hit] at hd
        · exact hrest
      · exact hrest
    · exact hrest

theorem visitOneNode_none (fileContent : Str) (filePath relativePath : String)
    (n : VisitedNode) (h : nodeMatches n = false) :
    visitOneNode fileContent filePath relativePath n = .ok [] := by
  cases n with
  | functionDeclaration id startPos endPos =>
    cases id with
    | none => rfl
    | some name => simp only [nodeMatches] at h; simp [visitOneNode, h]
  | variableDeclaration startPos endPos declarators =>
    simp only [nodeMatches, List.any_eq_false] at h
    have h' : ∀ d ∈ declarators, declaratorMatches d = false := by
      intro d hd; simpa using h d hd
    simp [visitOneNode, visitDeclarators_none fileContent filePath relativePath
      startPos endPos declarators h']
  | classDeclaration id superClass startPos endPos =>
    simp only [nodeMatches] at h
    simp [visitOneNode, h]

/-- A traversal sequence on which no visitor fires collects nothing and does
not throw. -/
theorem visitNodes_none (fileContent : Str) (filePath relativePath : String) :
    ∀ nodes : List VisitedNode, (∀ n ∈ nodes, nodeMatches n = false) →
      visitNodes fileContent filePath relativePath nodes = .ok [] := by
  intro nodes
  induction nodes with
  | nil => intro _; rfl
  | cons n rest ih =>
    intro hall
    rw [visitNodes,
      visitOneNode_none fileContent filePath relativePath n (hall n (by simp)),
      ih fun x hx => hall x (List.mem_cons_of_mem _ hx)]
    rfl

/- Claim theorems. -/

/-- C1: for a file holding the arrow components Foo then Bar, neither with
existing documentation, update-existing disabled, and a documentation result
for both, updateFileWithDocStrings returns text in which each declaration is
immediately preceded by its own documentation block, in the original
relative order, and reports success 2, skipped 0, failed 0, modified true. -/
theorem c1_two_arrow_components_patched :
    updateFileWithDocStrings c1Text [c1Foo, c1Bar] c1Docs ⟨false, false⟩
      = ⟨"/** Foo docs */\nconst Foo = () => {};\n\n/** Bar docs */\nconst Bar = () => {};\n".toList,
          2, 0, 0, true⟩
    ∧ (updateFileWithDocStrings c1Text [c1Foo, c1Bar] c1Docs ⟨false, false⟩).newText
      = "/** Foo docs */".toList ++ '\n' :: "const Foo = () => {};".toList
        ++ '\n' :: '\n' :: "/** Bar docs */".toList
        ++ '\n' :: "const Bar = () => {};".toList ++ ['\n'] := by
  exact ⟨by decide, by decide⟩

/-- C2 counterexample: with a documentation result lacking the block markers,
the second application of the patcher does not detect the inserted text as an
existing block and inserts it again, so the claimed unconditional equation
patchFile(patchFile(x).newText).newText == patchFile(x).newText fails. -/
theorem c2_counterexample_not_idempotent :
    (updateFileWithDocStrings
        (updateFileWithDocStrings c2Text [c2Foo] c2Docs ⟨false, false⟩).newText
        [c2Foo] c2Docs ⟨false, false⟩).newText
      ≠ (updateFileWithDocStrings c2Text [c2Foo] c2Docs ⟨false, false⟩).newText := by
  decide

/-- C2 amended: with update-existing disabled, whenever every declaration
carrying an applicable documentation result relocates in the given text to a
position immediately preceded by a detected documentation block, the patcher
leaves the text unchanged, skips every declaration, and reports no
modification; in particular a second application under those conditions
returns the first output verbatim. -/
theorem c2_second_pass_identity (content : Str) (components : List Component)
    (docStrings : String → Option DocStringResult)
    (h : ∀ c ∈ components, docApplicable (docStrings c.uniqueId) = true →
      ∃ p, findComponentPosition content c = some p ∧
        ∃ ex, findExistingDocString content p.start = some ex) :
    updateFileWithDocStrings content components docStrings ⟨false, false⟩
      = ⟨content, 0, 0, components.length, false⟩ := by
  have hmem : ∀ c ∈ sortByStartPosDesc components,
      docApplicable (docStrings c.uniqueId) = true →
      ∃ p, findComponentPosition content c = some p ∧
        ∃ ex, findExistingDocString content p.start = some ex :=
    fun c hc => h c ((sortByStartPosDesc_perm components).mem_iff.mp hc)
  have hfold := foldl_processComponent_skip docStrings content
    (sortByStartPosDesc components) ⟨content, 0, 0, 0, false⟩ rfl hmem
  simp only [updateFileWithDocStrings, hfold]
  simp [sortByStartPosDesc_length]

/-- C2 witness: a file whose only component already carries a documentation
block is returned unchanged by the patcher, with the component skipped. -/
theorem c2_witness :
    updateFileWithDocStrings c2WText [c2Foo] c2Docs ⟨false, false⟩
      = ⟨c2WText, 0, 0, 1, false⟩ :=
  c2_second_pass_identity c2WText [c2Foo] c2Docs (by
    intro c hc happ
    obtain rfl := List.mem_singleton.mp hc
    exact ⟨⟨9, 9, 30⟩, by decide, ⟨⟨0, 8⟩, by decide⟩⟩)

/-- C3: an existing documentation block is detected before the relocated Foo
declaration and update-existing is enabled, yet because findExistingDocString
returns offsets into the trimmed prefix while the replacement indexes the
untrimmed buffer, the edit deletes the file's leading space and leaves a
stray slash of the old block: bytes outside the block's span [1, 11) are
altered, while the step still counts one success. -/
theorem c3_replacement_misaligned_on_leading_whitespace :
    updateFileWithDocStrings c3Text [c3Foo] c3Docs ⟨false, true⟩
      = ⟨"/** new *//\nconst Foo = () => {};\n".toList, 1, 0, 0, true⟩
    ∧ (updateFileWithDocStrings c3Text [c3Foo] c3Docs ⟨false, true⟩).newText
      ≠ " /** new */\nconst Foo = () => {};\n".toList := by
  exact ⟨by decide, by decide⟩

/-- C4: sanitizeDocString performs each removal in a single left-to-right
pass, so removed spans can splice adjacent characters into a fresh close
marker: on this input the returned block's first close marker sits at index
4 while the block ends at index 9, so the block prematurely closes. -/
theorem c4_sanitize_premature_close :
    sanitizeDocString "***//**//x".toList = "/** */x\n */".toList
    ∧ idxOf? (sanitizeDocString "***//**//x".toList) ("*/".toList) = some 4
    ∧ idxOf? (sanitizeDocString "***//**//x".toList) ("*/".toList)
      ≠ some ((sanitizeDocString "***//**//x".toList).length - 2) := by
  exact ⟨by decide, by decide, by decide⟩

/-- C5 amended: every component list the locator returns is sorted by span
start ascending, and the patcher's re-sort orders by span start descending,
over a permutation of its input; the disjointness half of the original claim
is refuted separately. -/
theorem c5_locator_sorts_ascending_patcher_descending :
    (∀ (filePath : String) (fileContent : Str) (relativePath : String)
        (parseResult : Except String (List VisitedNode)) (comps : List Component),
        extractComponentsFromFile filePath fileContent relativePath parseResult
          = .ok comps →
        List.Pairwise (fun a b => a.startPos ≤ b.startPos) comps)
    ∧ (∀ components : List Component,
        List.Pairwise (fun a b => b.startPos ≤ a.startPos)
          (sortByStartPosDesc components)
        ∧ List.Perm (sortByStartPosDesc components) components) := by
  constructor
  · intro filePath fileContent relativePath parseResult comps h
    cases parseResult with
    | error msg =>
      simp only [extractComponentsFromFile] at h
      cases h
      exact List.Pairwise.nil
    | ok nodes =>
      simp only [extractComponentsFromFile] at h
      split at h
      · cases h
      · rename_i l hvl
        cases h
        exact sortStable_pairwise _ (fun x y => Nat.le_total x.startPos y.startPos)
          (fun x y z hxy hyz => Nat.le_trans hxy hyz) l
  · intro components
    exact ⟨sortStable_pairwise _ (fun x y => Nat.le_total y.startPos x.startPos)
        (fun x y z hxy hyz => Nat.le_trans hyz hxy) components,
      sortByStartPosDesc_perm components⟩

/-- C5 counterexample: a component declared inside another component's body
is reported with a span nested inside the outer span, refuting the pairwise
disjointness half of the claim. -/
theorem c5_counterexample_nested_spans :
    (extractComponentsFromFile "/p/a.jsx" c5Content "a.jsx" (.ok c5Nodes)).map
        (fun l => l.map fun c => (c.name, c.startPos, c.endPos))
      = .ok [("Foo", 0, 55), ("Bar", 19, 39)]
    ∧ (0 : Nat) ≤ 19 ∧ (39 : Nat) ≤ 55 := by
  exact ⟨rfl, by decide, by decide⟩

/-- C5 witness: the sortedness facts at a concrete one-component
extraction. -/
theorem c5_witness :
    List.Pairwise (fun a b => a.startPos ≤ b.startPos) [c5WComp]
    ∧ List.Pairwise (fun a b => b.startPos ≤ a.startPos)
        (sortByStartPosDesc [c5WComp])
    ∧ List.Perm (sortByStartPosDesc [c5WComp]) [c5WComp] :=
  ⟨c5_locator_sorts_ascending_patcher_descending.1 "/p/b.js" c5WContent "b.js"
      (.ok c5WNodes) [c5WComp] rfl,
    (c5_locator_sorts_ascending_patcher_descending.2 [c5WComp]).1,
    (c5_locator_sorts_ascending_patcher_descending.2 [c5WComp]).2⟩

/-- C6 counterexample: the class branch of the locator applies no name-casing
test, so a class with a lower-case name extending Component is returned,
refuting the claim that every returned declaration has an upper-case name. -/
theorem c6_counterexample_lowercase_class :
    (extractComponentsFromFile "/p/b.jsx" c6Content "b.jsx" (.ok c6Nodes)).map
        (fun l => l.map fun c => (c.name, c.type))
      = .ok [("foo", "ClassComponent")]
    ∧ nameStartsUpper "foo" = false := by
  exact ⟨rfl, rfl⟩

/-- C6 amended: every declaration the locator returns from the function and
variable (arrow, styled, HOC) branches has an upper-case first letter; the
class branch filters on the superclass alone. -/
theorem c6_uppercase_filter_outside_class_branch (filePath : String)
    (fileContent : Str) (relativePath : String) (nodes : List VisitedNode)
    (comps : List Component)
    (h : extractComponentsFromFile filePath fileContent relativePath (.ok nodes)
      = .ok comps) :
    ∀ c ∈ comps, c.type ≠ "ClassComponent" → nameStartsUpper c.name = true := by
  simp only [extractComponentsFromFile] at h
  split at h
  · cases h
  · rename_i l hvl
    cases h
    intro c hc hty
    exact visitNodes_upper fileContent filePath relativePath nodes l hvl c
      ((sortByStartPosAsc_perm l).mem_iff.mp hc) hty

/-- C6 witness: the upper-case fact for a concrete extracted function
component. -/
theorem c6_witness : nameStartsUpper c6WComp.name = true :=
  c6_uppercase_filter_outside_class_branch "/p/c.js" c6WContent "c.js" c6WNodes
    [c6WComp] rfl c6WComp (List.mem_singleton.mpr rfl) (by decide)

/-- C7 amended: a parse failure yields the empty declaration sequence, and a
parseable input on which no visitor fires yields the empty sequence, neither
as an error; the never-throws half of the original claim is refuted
separately. -/
theorem c7_parse_failure_and_no_match_recovered :
    (∀ (filePath : String) (fileContent : Str) (relativePath : String)
        (msg : String),
        extractComponentsFromFile filePath fileContent relativePath (.error msg)
          = .ok [])
    ∧ (∀ (filePath : String) (fileContent : Str) (relativePath : String)
        (nodes : List VisitedNode),
        (∀ n ∈ nodes, nodeMatches n = false) →
        extractComponentsFromFile filePath fileContent relativePath (.ok nodes)
          = .ok []) := by
  constructor
  · intro _ _ _ _
    rfl
  · intro filePath fileContent relativePath nodes h
    simp only [extractComponentsFromFile,
      visitNodes_none fileContent filePath relativePath nodes h]
    rfl

/-- C7 counterexample: on an anonymous default-exported class whose
superclass matches, the locator reads the name of a missing id and throws
(the error value), refuting the claim that the locator never throws. -/
theorem c7_counterexample_throws_on_anonymous_class :
    extractComponentsFromFile "/p/c.jsx" c7Content "c.jsx" (.ok c7Nodes)
      = .error () := rfl

/-- C7 witness: the recovery facts at a concrete parse failure and at a
concrete no-match traversal. -/
theorem c7_witness :
    extractComponentsFromFile "/p/d.jsx" c7WContent "d.jsx" (.error "SyntaxError")
      = .ok []
    ∧ extractComponentsFromFile "/p/d.jsx" c7WContent "d.jsx" (.ok c7WNodes)
      = .ok [] :=
  ⟨c7_parse_failure_and_no_match_recovered.1 "/p/d.jsx" c7WContent "d.jsx"
      "SyntaxError",
    c7_parse_failure_and_no_match_recovered.2 "/p/d.jsx" c7WContent "d.jsx"
      c7WNodes (by decide)⟩

/-- C8 counterexample: for the same inputs, a dry run reports one success
while a real run reports none (it skips the component), so preview mode does
not perform the same computation as a real run. -/
theorem c8_counterexample_dry_run_counts_differ :
    (updateFileWithDocStrings c8Text [c8Comp] c8Docs ⟨true, false⟩).success = 1
    ∧ (updateFileWithDocStrings c8Text [c8Comp] c8Docs ⟨false, false⟩).success = 0
    ∧ (updateFileWithDocStrings c8Text [c8Comp] c8Docs ⟨false, false⟩).skipped = 1 := by
  exact ⟨rfl, by decide, by decide⟩

/-- C8 amended: in preview mode the per-file update performs no
per-declaration computation and writes nothing: whatever the inputs, it
returns the content unchanged and reports success equal to the number of
declarations, failed 0 and modified false (the source returns no skipped
count there; it is modelled as 0). -/
theorem c8_dry_run_short_circuits (content : Str) (components : List Component)
    (docStrings : String → Option DocStringResult) (updateExisting : Bool) :
    updateFileWithDocStrings content components docStrings ⟨true, updateExisting⟩
      = ⟨content, components.length, 0, 0, false⟩ := rfl

/-- C9: for every input string, sanitizeDocString returns a string that
starts with the open marker and ends with the close marker. -/
theorem c9_sanitize_always_wrapped (docString : Str) :
    "/**".toList <+: sanitizeDocString docString
    ∧ "*/".toList <:+ sanitizeDocString docString := by
  have hopen : ∀ s : Str, "/**".toList <+: wrapOpen s := by
    intro s
    unfold wrapOpen
    split
    · rename_i hpre
      exact List.isPrefixOf_iff_prefix.mp hpre
    · exact List.prefix_append _ _
  unfold sanitizeDocString wrapClose
  split
  · rename_i hsuf
    exact ⟨hopen _, List.isSuffixOf_iff_suffix.mp hsuf⟩
  · exact ⟨(hopen _).trans (List.prefix_append _ _),
      (show "*/".toList <:+ "\n */".toList from ⟨['\n', ' '], rfl⟩).trans
        (List.suffix_append _ _)⟩

/-- C10: in a non-dry-run per-file update, success, failed and skipped sum to
the number of declarations passed in, and a declaration whose applicable
docstring cannot be relocated increments failed alone and leaves the buffer
unchanged. -/
theorem c10_counters_partition_components (content : Str)
    (components : List Component) (docStrings : String → Option DocStringResult)
    (updateExisting : Bool) :
    ((updateFileWithDocStrings content components docStrings
        ⟨false, updateExisting⟩).success
      + (updateFileWithDocStrings content components docStrings
        ⟨false, updateExisting⟩).failed
      + (updateFileWithDocStrings content components docStrings
        ⟨false, updateExisting⟩).skipped
      = components.length)
    ∧ (∀ (st : PatchState) (c : Component) (r : DocStringResult) (doc : Str),
        docStrings c.uniqueId = some r → r.docstring = some doc →
        doc.isEmpty = false → r.skipped = false →
        findComponentPosition st.content c = none →
        processComponent docStrings ⟨false, updateExisting⟩ st c
          = { st with failed := st.failed + 1 }) := by
  constructor
  · have h := foldl_processComponent_counts docStrings ⟨false, updateExisting⟩
      (sortByStartPosDesc components) ⟨content, 0, 0, 0, false⟩
    simpa [updateFileWithDocStrings, sortByStartPosDesc_length] using h
  · intro st c r doc hr hdoc hempty hskip hpos
    simp [processComponent, hr, hdoc, hempty, hskip, hpos]

/-- C10 witness: the counter partition and the failed-relocation step at a
concrete component whose signature is absent from the buffer. -/
theorem c10_witness :
    ((updateFileWithDocStrings c10Text [c10Comp] c10Docs ⟨false, false⟩).success
      + (updateFileWithDocStrings c10Text [c10Comp] c10Docs ⟨false, false⟩).failed
      + (updateFileWithDocStrings c10Text [c10Comp] c10Docs ⟨false, false⟩).skipped
      = 1)
    ∧ processComponent c10Docs ⟨false, false⟩ ⟨c10Text, 0, 0, 0, false⟩ c10Comp
      = ⟨c10Text, 0, 1, 0, false⟩ :=
  ⟨(c10_counters_partition_components c10Text [c10Comp] c10Docs false).1,
    (c10_counters_partition_components c10Text [c10Comp] c10Docs false).2
      ⟨c10Text, 0, 0, 0, false⟩ c10Comp ⟨some "/** z */".toList, false⟩
      "/** z */".toList rfl rfl rfl rfl (by decide)⟩

end ReactDocGen
